import Mathlib

/-!
Shallow embedding of the Return-Verify return-shipment verification
component (`src/components/ResumeVerification.tsx`, main component
starting at line 612, plus the variants in `ReturnVerification.tsx` and
the unnamed source file where the claims cite them).

The embedding models, faithfully to the TypeScript source:
  * the `extractValue` labelled-value extractor;
  * the exact AWB index and the Delhivery prefix index built in
    `handleFileUpload`;
  * the `verifyAwb` two-tier lookup;
  * the debounce-fire body of `handleAwbInputChange` (record flipping and
    the success/info/error outcome) and the input auto-clear callback;
  * the `returnType` derivation from the fee cell;
  * the report projection of `handleDownloadReport`;
  * the bulk `handleMarkSelectedAsReceived` operation.

JS strings are modelled as Lean `String` (the data involved is ASCII, so
`toLower`/`trim`/character indexing agree with the UTF-16 semantics of the
source), JS `Map<string, number[]>` lookups as functions from keys to the
index lists the builder would have stored, and JS array indices as `Nat`.
-/

namespace ReturnVerify

/-- JS `s.toLowerCase()` (ASCII case mapping, which covers the data this
system handles).  Defined by structural recursion over the character list
so that concrete runs reduce inside the kernel. -/
def jsToLower (s : String) : String :=
  ⟨s.data.map Char.toLower⟩

/-- JS `s.trim()`: strip whitespace from both ends. -/
def jsTrim (s : String) : String :=
  ⟨((s.data.dropWhile Char.isWhitespace).reverse.dropWhile
      Char.isWhitespace).reverse⟩

/-- JS `s.slice(0, -1)`: the string minus its final character (the empty
string stays empty). -/
def jsDropLast (s : String) : String :=
  ⟨s.data.dropLast⟩

/-- JS `s.substring(n)`: drop the first `n` characters (everything when
`n` exceeds the length). -/
def jsDrop (s : String) (n : Nat) : String :=
  ⟨s.data.drop n⟩

/-- JS `s.length`. -/
def jsLength (s : String) : Nat :=
  s.data.length

/-- JS `s.startsWith(pat)`. -/
def jsStartsWith (s pat : String) : Bool :=
  pat.data.isPrefixOf s.data

/-- First index at which `pat` occurs as a contiguous sublist of `hay`
(`String.prototype.indexOf` of JS, `none` standing for `-1`). -/
def listIndexOf? (hay pat : List Char) : Option Nat :=
  if pat.isPrefixOf hay then some 0
  else
    match hay with
    | [] => none
    | _ :: t => (listIndexOf? t pat).map (fun n => n + 1)

/-- JS `s.indexOf(pat)` on strings, `none` for `-1`. -/
def strIndexOf? (s pat : String) : Option Nat :=
  listIndexOf? s.data pat.data

/-- JS `s.includes(pat)`. -/
def strContains (s pat : String) : Bool :=
  (strIndexOf? s pat).isSome

/-- JS `/^\d+$/.test(s)`: non-empty and all ASCII digits. -/
def isAllDigits (s : String) : Bool :=
  decide (jsLength s > 0) && s.data.all Char.isDigit

/-- One parsed return-shipment record (`interface ReturnItem`,
ResumeVerification.tsx lines 531-544).  `deliveredOn` is kept as the raw
stored string; `received` is the only mutable field. -/
structure ReturnItem where
  awb : String
  suborderId : String
  sku : String
  category : String
  qty : String
  size : String
  returnReason : String
  returnShippingFee : String
  deliveredOn : String
  courierPartner : String
  returnType : String
  received : Bool
deriving DecidableEq, Repr

/-- `extractValue` (ResumeVerification.tsx lines 648-660): case-insensitive
search for `keyword` inside `cellContent`; on a hit, the remainder after
the keyword is trimmed, one leading `:` is stripped, and an empty remainder
becomes the placeholder `"-"` (JS `value || '-'`); on a miss the result is
the empty string. -/
def extractValue (cellContent keyword : String) : String :=
  let lowerContent := jsToLower cellContent
  let lowerKeyword := jsTrim (jsToLower keyword)
  match strIndexOf? lowerContent lowerKeyword with
  | some keywordIndex =>
    let v0 := jsTrim (jsDrop cellContent (keywordIndex + jsLength keyword))
    let v1 := if jsStartsWith v0 ":" then jsTrim (jsDrop v0 1) else v0
    if v1 = "" then "-" else v1
  | none => ""

/-- The exact index `awbMap` of `handleFileUpload` (lines 884-892): for a
normalized key, the positions of all records whose lowercased AWB equals
it, in list order (the order the builder pushed them). -/
def buildAwbMap (items : List ReturnItem) (key : String) : List Nat :=
  (List.range items.length).filter (fun i =>
    match items[i]? with
    | some it => decide (jsToLower it.awb = key)
    | none => false)

/-- The courier-scoped prefix index `delhiveryPrefixMap` (lines 894-902):
positions of records whose courier contains `"delhivery"` and whose
lowercased AWB minus its last character is a non-empty all-digit string
equal to the queried key. -/
def buildDelhiveryPfxMap (items : List ReturnItem) (pfx : String) : List Nat :=
  (List.range items.length).filter (fun i =>
    match items[i]? with
    | some it =>
      strContains (jsToLower it.courierPartner) "delhivery" &&
      (let p := jsDropLast (jsToLower it.awb)
       decide (jsLength p > 0) && isAllDigits p && decide (p = pfx))
    | none => false)

/-- `verifyAwb` (lines 942-962): exact lookup on the normalized input,
falling back — only when the exact set is empty, the input is longer than
one character and its dropped-last-character form is a non-empty all-digit
string — to the Delhivery prefix index. -/
def verifyAwb (items : List ReturnItem) (inputAwb : String) : List Nat :=
  let normalizedInput := jsTrim (jsToLower inputAwb)
  if normalizedInput = "" then []
  else
    let exactMatches := buildAwbMap items normalizedInput
    if exactMatches.isEmpty then
      if jsLength normalizedInput > 1 then
        let inputPfx := jsDropLast normalizedInput
        if decide (jsLength inputPfx > 0) && isAllDigits inputPfx then
          buildDelhiveryPfxMap items inputPfx
        else []
      else []
    else exactMatches

/-- `!matchedItem.received` test of the flip loop (line 997) on a record
position: `true` when the position holds a record that is still Pending.
(Out-of-range positions never reach the loop: `verifyAwb` only yields
positions produced by the index builders, which are in range.) -/
def pendingAt (items : List ReturnItem) (i : Nat) : Bool :=
  match items[i]? with
  | some it => !it.received
  | none => false

/-- One iteration of the flip loop (lines 995-1002): flips position `i`
of the working copy to received when it is still Pending, reporting
whether a flip happened. -/
def flipOne (items : List ReturnItem) (i : Nat) : List ReturnItem × Bool :=
  match items[i]? with
  | some it =>
    if it.received then (items, false)
    else (items.set i { it with received := true }, true)
  | none => (items, false)

/-- The whole flip loop `foundIndices.forEach` (lines 995-1002): runs
`flipOne` over the found positions left to right on the evolving working
copy, counting the flips (`successfullyVerifiedItems.length`). -/
def flipRun (items : List ReturnItem) : List Nat → List ReturnItem × Nat
  | [] => (items, 0)
  | i :: t =>
    let step := flipOne items i
    let rest := flipRun step.1 t
    (rest.1, (if step.2 then 1 else 0) + rest.2)

/-- Outcome of one debounce firing (the `currentStatus` value together
with the counts the success toast title carries,
`verifiedCount of totalMatches matching orders`, line 1019). -/
inductive VerifyOutcome
  | success (verifiedCount : Nat) (totalMatches : Nat)
  | info (totalMatches : Nat)
  | error
deriving DecidableEq, Repr

/-- Net effect on the record list of the debounce-timer body
(lines 986-1062): look the input up, and
  * no match — emit `error`, list untouched;
  * matches but none still Pending (`allPreviouslyReceived`) — emit
    `info`, list untouched (no `setAwbList` call);
  * at least one flip — install the flipped working copy and emit
    `success` with the flip count and the total match count. -/
def fireVerification (awbList : List ReturnItem) (trimmedAwb : String) :
    List ReturnItem × VerifyOutcome :=
  let foundIndices := verifyAwb awbList trimmedAwb
  if foundIndices.isEmpty then (awbList, .error)
  else
    let res := flipRun awbList foundIndices
    if res.2 = 0 then (awbList, .info foundIndices.length)
    else (res.1, .success res.2 foundIndices.length)

/-- Whether the outcome schedules the 5-second input auto-clear timer
(line 1067: only `error` and `info` do; `success` clears immediately and
schedules nothing). -/
def schedulesInputClear : VerifyOutcome → Bool
  | .success _ _ => false
  | .info _ => true
  | .error => true

/-- The auto-clear callback (lines 1069-1079): at fire time the input is
emptied only when its current trimmed value still equals the value that
triggered the result, else it is left untouched. -/
def clearInputFire (trimmedAwb prevAwb : String) : String :=
  if jsTrim prevAwb = trimmedAwb then "" else prevAwb

/-- The slice of component state that `handleAwbInputChange` touches.  The
timer refs are modelled by the payload a pending timer would deliver
(`none` = no timer outstanding). -/
structure VerifState where
  awbList : List ReturnItem
  currentAwb : String
  debounceTimer : Option String
  clearInputTimer : Option String
deriving DecidableEq, Repr

/-- The synchronous part of `handleAwbInputChange` (lines 965-991): store
the keystroke, cancel both outstanding timers, and (re)start the debounce
timer only when the trimmed input has length at least 5 and records are
loaded. -/
def handleAwbInputChange (s : VerifState) (newAwb : String) : VerifState :=
  let s1 : VerifState :=
    { s with currentAwb := newAwb, clearInputTimer := none, debounceTimer := none }
  let trimmedAwb := jsTrim newAwb
  if decide (jsLength trimmedAwb ≥ 5) && decide (s.awbList.length > 0) then
    { s1 with debounceTimer := some trimmedAwb }
  else s1

/-- `handleMarkSelectedAsReceived` (lines 1211-1227): no-op when nothing
is selected; otherwise every record whose exact AWB string is in the
selected set becomes received and the selection is emptied.  The JS
`Set<string>` is modelled as the list of its members. -/
def handleMarkSelectedAsReceived (awbList : List ReturnItem)
    (selectedAwbs : List String) : List ReturnItem × List String :=
  if selectedAwbs.isEmpty then (awbList, selectedAwbs)
  else
    (awbList.map (fun it =>
      if it.awb ∈ selectedAwbs then { it with received := true } else it), [])

/-- The record assembly of `handleFileUpload` (lines 855-868): every
freshly extracted record is created with `received := false`. -/
def mkReturnItem (awb courierPartner suborderId sku category qty size
    returnReason returnShippingFee deliveredOn returnType : String) :
    ReturnItem :=
  { awb := awb, courierPartner := courierPartner, suborderId := suborderId,
    sku := sku, category := category, qty := qty, size := size,
    returnReason := returnReason, returnShippingFee := returnShippingFee,
    deliveredOn := deliveredOn, returnType := returnType,
    received := false }

/-- Numeric value of a digit run, most significant first. -/
def digitsToNat (ds : List Char) : Nat :=
  ds.foldl (fun acc c => acc * 10 + (c.toNat - ('0').toNat)) 0

/-- Unsigned decimal mantissa of a JS numeric string literal
(`Digits ['.' Digits*] | '.' Digits+`): the concatenated digits' value
together with the implied power-of-ten scale (minus the fraction length)
— so the parsed value is `mantissa * 10 ^ scale` exactly — and the
unconsumed remainder; `none` when no mantissa is present. -/
def parseUnsignedDec (cs : List Char) : Option ((Nat × Int) × List Char) :=
  let intPart := cs.takeWhile Char.isDigit
  let rest := cs.dropWhile Char.isDigit
  match rest with
  | '.' :: rest2 =>
    let fracPart := rest2.takeWhile Char.isDigit
    let rest3 := rest2.dropWhile Char.isDigit
    if intPart.isEmpty && fracPart.isEmpty then none
    else
      some ((digitsToNat (intPart ++ fracPart),
        -(fracPart.length : Int)), rest3)
  | _ =>
    if intPart.isEmpty then none
    else some ((digitsToNat intPart, 0), rest)

/-- Exponent tail of a JS numeric string literal (after the `e`/`E`):
optional sign then one or more digits, which must exhaust the string. -/
def parseExpDigits (cs : List Char) : Option Int :=
  let sgn : Int × List Char :=
    match cs with
    | '+' :: r => (1, r)
    | '-' :: r => (-1, r)
    | _ => (1, cs)
  let ds := sgn.2.takeWhile Char.isDigit
  let rest := sgn.2.dropWhile Char.isDigit
  if ds.isEmpty || !rest.isEmpty then none
  else some (sgn.1 * (digitsToNat ds : Int))

/-- Hexadecimal digit test (`0-9`, `a-f`, `A-F`). -/
def isHexDigit (c : Char) : Bool :=
  c.isDigit || (decide ('a' ≤ c) && decide (c ≤ 'f')) ||
    (decide ('A' ≤ c) && decide (c ≤ 'F'))

/-- Octal digit test (`0-7`). -/
def isOctDigit (c : Char) : Bool :=
  decide ('0' ≤ c) && decide (c ≤ '7')

/-- Binary digit test (`0`/`1`). -/
def isBinDigit (c : Char) : Bool :=
  c = '0' || c = '1'

/-- Value of one hexadecimal digit (also valid on octal/binary digits). -/
def hexDigitVal (c : Char) : Nat :=
  if c.isDigit then c.toNat - ('0').toNat
  else if decide ('a' ≤ c) && decide (c ≤ 'f') then
    c.toNat - ('a').toNat + 10
  else c.toNat - ('A').toNat + 10

/-- Value of a digit run in the given radix, most significant first. -/
def radixVal (radix : Nat) (ds : List Char) : Nat :=
  ds.foldl (fun acc c => acc * radix + hexDigitVal c) 0

/-- The `NonDecimalIntegerLiteral` production of the ECMAScript
string-to-number grammar: `0x`/`0X` hex, `0o`/`0O` octal, `0b`/`0B`
binary, one or more digits, consuming the whole input, never signed. -/
def parseNonDecimal (cs : List Char) : Option Nat :=
  match cs with
  | '0' :: b :: rest =>
    if rest.isEmpty then none
    else if b = 'x' ∨ b = 'X' then
      if rest.all isHexDigit then some (radixVal 16 rest)
      else none
    else if b = 'o' ∨ b = 'O' then
      if rest.all isOctDigit then some (radixVal 8 rest)
      else none
    else if b = 'b' ∨ b = 'B' then
      if rest.all isBinDigit then some (radixVal 2 rest)
      else none
    else none
  | _ => none

/-- Result of the ECMAScript string-to-number grammar on a string, kept
EXACT: `NaN`, a signed infinity (`"Infinity"` literals), or the precise
mathematical value of the literal recorded as `±mantissa * 10 ^ exp10` —
a form every production of the grammar yields exactly, and one built
solely from `Nat`/`Int` so concrete runs reduce inside the kernel.
Float64 rounding enters only in the zero test `jsNumIsZero` below, which
is all the program ever does with the value. -/
inductive JsNum
  | nan
  | inf (negative : Bool)
  | val (negative : Bool) (mantissa : Nat) (exp10 : Int)
deriving DecidableEq, Repr

/-- JS `Number(s)` on a string, exact: trims, maps the empty string to
`0`, accepts an unsigned hex/octal/binary `NonDecimalIntegerLiteral`, the
signed `Infinity` literal, or an optionally signed decimal literal with
optional fraction and exponent; everything else is `NaN`. -/
def jsStrToNumber (s : String) : JsNum :=
  let t := jsTrim s
  if t = "" then .val false 0 0
  else
    let cs := t.data
    match parseNonDecimal cs with
    | some m => .val false m 0
    | none =>
      let signed : Bool × List Char :=
        match cs with
        | '+' :: r => (false, r)
        | '-' :: r => (true, r)
        | _ => (false, cs)
      if signed.2 = ("Infinity").data then .inf signed.1
      else
        match parseUnsignedDec signed.2 with
        | none => .nan
        | some mr =>
          match mr.2 with
          | [] => .val signed.1 mr.1.1 mr.1.2
          | 'e' :: r =>
            match parseExpDigits r with
            | some e => .val signed.1 mr.1.1 (mr.1.2 + e)
            | none => .nan
          | 'E' :: r =>
            match parseExpDigits r with
            | some e => .val signed.1 mr.1.1 (mr.1.2 + e)
            | none => .nan
          | _ => .nan

/-- Whether the float64 `Number(s)` produces compares `=== 0`.  `NaN` and
the infinities are non-zero.  An exact value `±m * 10 ^ e` rounds to
(±)0 under round-to-nearest-even exactly when its magnitude is at most
`2 ^ -1075` — half the smallest subnormal `2 ^ -1074`, the tie going to
the significand-even `0` — that is, when `m = 0`, or `e = -(k+1)` is
negative and `m * 2 ^ 1075 ≤ 10 ^ (k+1)` (for `e ≥ 0` and `m ≥ 1` the
magnitude is at least `1`).  This covers underflow such as
`Number("1e-324") === 0`. -/
def jsNumIsZero : JsNum → Bool
  | .nan => false
  | .inf _ => false
  | .val _ m e =>
    if m = 0 then true
    else
      match e with
      | .ofNat _ => false
      | .negSucc k => decide (m * 2 ^ 1075 ≤ 10 ^ (k + 1))

/-- A raw spreadsheet cell as `sheet_to_json` with `raw: true` yields it:
a number or a string (`null` cells are `Option.none` one level up). -/
inductive CellVal
  | num (q : ℚ)
  | str (s : String)
deriving DecidableEq, Repr

/-- The first disjunct of line 844, `Number(v) === 0`: a number cell is
its own number (zero exactly when the stored value is); a string cell
goes through the string-to-number conversion and the zero test. -/
def jsNumberEqZero : CellVal → Bool
  | .num q => decide (q = 0)
  | .str s => jsNumIsZero (jsStrToNumber s)

/-- The second disjunct of line 844, `String(v).trim() === '0'`: for a
string cell this is a literal comparison; for a number cell JS prints
`"0"` exactly when the number is zero (every non-zero number renders as a
different literal), so the comparison holds exactly at zero. -/
def cellStrTrimEqZeroLit : CellVal → Bool
  | .num q => decide (q = 0)
  | .str s => decide (jsTrim s = "0")

/-- `safeGet` of `handleFileUpload` (lines 825-829) on a raw row: the cell
at the index when in range, else `null`. -/
def safeGetCell (row : List (Option CellVal)) (idx : Nat) : Option CellVal :=
  match row[idx]? with
  | some v => v
  | none => none

/-- Column D, the fixed return-shipping-fee column (line 710). -/
def feeIndex : Nat := 3

/-- The `returnType` derivation (lines 841-849): `RTO` when the fee value
is readable and its JS-numeric value is zero or its trimmed string form is
the literal `"0"`; otherwise — a non-zero or unparsable fee, or an
unreadable (`null`) cell — `Customer Return`. -/
def deriveReturnType (shippingFeeValueRaw : Option CellVal) : String :=
  match shippingFeeValueRaw with
  | some v =>
    if jsNumberEqZero v || cellStrTrimEqZeroLit v then "RTO"
    else "Customer Return"
  | none => "Customer Return"

/-- `returnType` as computed for a shipment span: the fee cell is read
from the span's first row (`detailsRowRaw = rawJsonData[shipmentStartRow]`,
line 823) at the fixed fee column. -/
def returnTypeOfFirstRow (firstRow : List (Option CellVal)) : String :=
  deriveReturnType (safeGetCell firstRow feeIndex)

/-- JS `s || dflt` on strings: the default replaces the empty string. -/
def jsOrDefault (s dflt : String) : String :=
  if s = "" then dflt else s

/-- One row of the generated report (`reportData`, lines 1143-1156),
fields in source column order. -/
structure ReportRow where
  awbNumber : String
  courierPartner : String
  sku : String
  category : String
  qty : String
  size : String
  returnType : String
  suborderId : String
  returnReason : String
  returnShippingFee : String
  deliveredOn : String
  status : String
deriving DecidableEq, Repr

/-- The per-record projection of `handleDownloadReport` (lines 1143-1156).
`deliveredOn` is carried as the stored string (the source renders it
through the locale-dependent `formatDate`; the rendering is not modelled
and no claim concerns the rendered text).  `Status` is `"Done"` exactly
for received records. -/
def toReportRow (it : ReturnItem) : ReportRow :=
  { awbNumber := it.awb,
    courierPartner := jsOrDefault it.courierPartner "Unknown",
    sku := jsOrDefault it.sku "-",
    category := jsOrDefault it.category "-",
    qty := jsOrDefault it.qty "-",
    size := jsOrDefault it.size "-",
    returnType := jsOrDefault it.returnType "-",
    suborderId := jsOrDefault it.suborderId "-",
    returnReason := jsOrDefault it.returnReason "-",
    returnShippingFee := jsOrDefault it.returnShippingFee "-",
    deliveredOn := it.deliveredOn,
    status := if it.received then "Done" else "Pending" }

/-- The whole report body: one output row per record, in list order. -/
def reportData (awbList : List ReturnItem) : List ReportRow :=
  awbList.map toReportRow

/-- The highlight pass (lines 1163-1177): a data row receives the solid
fill exactly when its `Status` cell holds `"Pending"`. -/
def rowHighlighted (row : ReportRow) : Bool :=
  decide (row.status = "Pending")

/-! ### Concrete fixtures used by the witness theorems -/

/-- A still-Pending record with a plain (non-Delhivery) courier. -/
def itemPlain : ReturnItem :=
  { awb := "12345", suborderId := "a", sku := "-", category := "-",
    qty := "-", size := "-", returnReason := "-", returnShippingFee := "-",
    deliveredOn := "-", courierPartner := "X", returnType := "RTO",
    received := false }

/-- An already-received record with AWB `"55555"`. -/
def itemDoneShared : ReturnItem :=
  { itemPlain with awb := "55555", suborderId := "a", received := true }

/-- A still-Pending record sharing AWB `"55555"` with `itemDoneShared`. -/
def itemPendShared : ReturnItem :=
  { itemPlain with awb := "55555", suborderId := "b" }

/-- A Pending Delhivery record with the spec example's tracking number. -/
def itemDelhivery : ReturnItem :=
  { itemPlain with awb := "99988877701", courierPartner := "Delhivery" }

/-- A component state with one record loaded and both timers pending. -/
def stateFix : VerifState :=
  { awbList := [itemPlain], currentAwb := "old",
    debounceTimer := some "55555", clearInputTimer := some "44444" }

/-! ### Supporting lemmas -/

lemma setReceived_of_received {it : ReturnItem} (h : it.received = true) :
    ({ it with received := true } : ReturnItem) = it := by
  cases it
  simp only [ReturnItem.received] at h
  subst h
  rfl

lemma flipOne_getElem?_ne (items : List ReturnItem) (i j : Nat) (h : i ≠ j) :
    (flipOne items i).1[j]? = items[j]? := by
  cases hi : items[i]? with
  | none => simp [flipOne, hi]
  | some it =>
    by_cases hr : it.received <;>
      simp [flipOne, hi, hr, List.getElem?_set_ne h]

lemma flipOne_getElem?_self (items : List ReturnItem) (i : Nat) :
    (flipOne items i).1[i]? =
      items[i]?.map (fun it => { it with received := true }) := by
  cases hi : items[i]? with
  | none => simp [flipOne, hi]
  | some it =>
    by_cases hr : it.received
    · simp [flipOne, hi, hr, setReceived_of_received hr]
    · simp [flipOne, hi, hr, List.getElem?_set_self', hi]

lemma flipOne_snd (items : List ReturnItem) (i : Nat) :
    (flipOne items i).2 = pendingAt items i := by
  cases hi : items[i]? with
  | none => simp [flipOne, pendingAt, hi]
  | some it => by_cases hr : it.received <;> simp [flipOne, pendingAt, hi, hr]

lemma flipOne_pendingAt_ne (items : List ReturnItem) (i j : Nat) (h : i ≠ j) :
    pendingAt (flipOne items i).1 j = pendingAt items j := by
  unfold pendingAt
  rw [flipOne_getElem?_ne items i j h]

lemma flipRun_getElem?_not_mem (l : List Nat) (items : List ReturnItem)
    (j : Nat) (h : j ∉ l) : (flipRun items l).1[j]? = items[j]? := by
  induction l generalizing items with
  | nil => rfl
  | cons i t ih =>
    have hji : i ≠ j := by
      rintro rfl
      exact h (List.mem_cons_self i t)
    have hjt : j ∉ t := fun hm => h (List.mem_cons_of_mem _ hm)
    simp only [flipRun]
    rw [ih _ hjt, flipOne_getElem?_ne items i j hji]

lemma flipRun_getElem?_mem (l : List Nat) (items : List ReturnItem)
    (j : Nat) (h : j ∈ l) :
    (flipRun items l).1[j]? =
      items[j]?.map (fun it => { it with received := true }) := by
  induction l generalizing items with
  | nil => cases h
  | cons i t ih =>
    simp only [flipRun]
    by_cases hjt : j ∈ t
    · rw [ih _ hjt]
      by_cases hij : i = j
      · subst hij
        rw [flipOne_getElem?_self]
        cases items[i]? <;> rfl
      · rw [flipOne_getElem?_ne items i j hij]
    · rcases List.mem_cons.mp h with rfl | hmem
      · rw [flipRun_getElem?_not_mem t _ _ hjt, flipOne_getElem?_self]
      · exact absurd hmem hjt

lemma flipRun_count (l : List Nat) (items : List ReturnItem)
    (hnd : l.Nodup) :
    (flipRun items l).2 = (l.filter (pendingAt items)).length := by
  induction l generalizing items with
  | nil => rfl
  | cons i t ih =>
    rcases List.nodup_cons.mp hnd with ⟨hit, hnd'⟩
    simp only [flipRun]
    rw [ih _ hnd']
    have hfil : t.filter (pendingAt (flipOne items i).1) =
        t.filter (pendingAt items) :=
      List.filter_congr (fun j hj =>
        flipOne_pendingAt_ne items i j (by rintro rfl; exact hit hj))
    rw [hfil, flipOne_snd, List.filter_cons]
    by_cases hp : pendingAt items i = true
    · simp [hp, Nat.add_comm]
    · simp [hp]

lemma mem_buildAwbMap {items : List ReturnItem} {key : String} {i : Nat} :
    i ∈ buildAwbMap items key ↔
      ∃ it, items[i]? = some it ∧ jsToLower it.awb = key := by
  unfold buildAwbMap
  rw [List.mem_filter, List.mem_range]
  constructor
  · rintro ⟨hlt, hpred⟩
    cases hi : items[i]? with
    | none => rw [hi] at hpred; exact absurd hpred (by simp)
    | some it =>
      rw [hi] at hpred
      exact ⟨it, rfl, of_decide_eq_true hpred⟩
  · rintro ⟨it, hi, hk⟩
    refine ⟨?_, ?_⟩
    · exact (List.getElem?_eq_some.mp hi).1
    · rw [hi]
      exact decide_eq_true hk

lemma mem_buildDelhiveryPfxMap {items : List ReturnItem} {pfx : String}
    {i : Nat} :
    i ∈ buildDelhiveryPfxMap items pfx ↔
      ∃ it, items[i]? = some it ∧
        strContains (jsToLower it.courierPartner) "delhivery" = true ∧
        (jsDropLast (jsToLower it.awb)).length > 0 ∧
        isAllDigits (jsDropLast (jsToLower it.awb)) = true ∧
        jsDropLast (jsToLower it.awb) = pfx := by
  unfold buildDelhiveryPfxMap
  rw [List.mem_filter, List.mem_range]
  constructor
  · rintro ⟨hlt, hpred⟩
    cases hi : items[i]? with
    | none => rw [hi] at hpred; exact absurd hpred (by simp)
    | some it =>
      rw [hi] at hpred
      simp only [Bool.and_eq_true, decide_eq_true_eq] at hpred
      exact ⟨it, rfl, hpred.1, hpred.2.1.1, hpred.2.1.2, hpred.2.2⟩
  · rintro ⟨it, hi, h1, h2, h3, h4⟩
    refine ⟨(List.getElem?_eq_some.mp hi).1, ?_⟩
    rw [hi]
    simp only [Bool.and_eq_true, decide_eq_true_eq]
    exact ⟨h1, ⟨h2, h3⟩, h4⟩

lemma buildAwbMap_nodup (items : List ReturnItem) (key : String) :
    (buildAwbMap items key).Nodup :=
  (List.nodup_range _).filter _

lemma buildDelhiveryPfxMap_nodup (items : List ReturnItem) (pfx : String) :
    (buildDelhiveryPfxMap items pfx).Nodup :=
  (List.nodup_range _).filter _

lemma verifyAwb_nodup (items : List ReturnItem) (input : String) :
    (verifyAwb items input).Nodup := by
  simp only [verifyAwb]
  split
  · exact List.nodup_nil
  · split
    · split
      · split
        · exact buildDelhiveryPfxMap_nodup _ _
        · exact List.nodup_nil
      · exact List.nodup_nil
    · exact buildAwbMap_nodup _ _

lemma verifyAwb_of_exact_nonempty {items : List ReturnItem} {input : String}
    (h0 : jsTrim (jsToLower input) ≠ "")
    (h : buildAwbMap items (jsTrim (jsToLower input)) ≠ []) :
    verifyAwb items input = buildAwbMap items (jsTrim (jsToLower input)) := by
  simp only [verifyAwb]
  rw [if_neg h0]
  rw [if_neg (by simp [List.isEmpty_iff, h])]

lemma verifyAwb_mem_of_exact_empty {items : List ReturnItem} {input : String}
    {i : Nat} (h : buildAwbMap items (jsTrim (jsToLower input)) = [])
    (hm : i ∈ verifyAwb items input) :
    jsLength (jsDropLast (jsTrim (jsToLower input))) > 0 ∧
    isAllDigits (jsDropLast (jsTrim (jsToLower input))) = true ∧
    i ∈ buildDelhiveryPfxMap items (jsDropLast (jsTrim (jsToLower input))) := by
  simp only [verifyAwb] at hm
  by_cases h0 : jsTrim (jsToLower input) = ""
  · rw [if_pos h0] at hm
    cases hm
  · rw [if_neg h0, h] at hm
    simp only [List.isEmpty_nil, if_true] at hm
    by_cases h1 : jsLength (jsTrim (jsToLower input)) > 1
    · rw [if_pos h1] at hm
      by_cases h2 : (decide (jsLength (jsDropLast (jsTrim (jsToLower input))) > 0) &&
          isAllDigits (jsDropLast (jsTrim (jsToLower input)))) = true
      · rw [if_pos h2] at hm
        simp only [Bool.and_eq_true, decide_eq_true_eq] at h2
        exact ⟨h2.1, h2.2, hm⟩
      · rw [if_neg h2] at hm
        cases hm
    · rw [if_neg h1] at hm
      cases hm

lemma fireVerification_eq_error {items : List ReturnItem} {input : String}
    (hne : verifyAwb items input = []) :
    fireVerification items input = (items, .error) := by
  simp only [fireVerification]
  rw [if_pos (by simp [hne])]

lemma fireVerification_eq_info {items : List ReturnItem} {input : String}
    (hne : verifyAwb items input ≠ [])
    (hcnt : (flipRun items (verifyAwb items input)).2 = 0) :
    fireVerification items input =
      (items, .info (verifyAwb items input).length) := by
  simp only [fireVerification]
  rw [if_neg (by simp [List.isEmpty_iff, hne]), if_pos hcnt]

lemma fireVerification_eq_success {items : List ReturnItem} {input : String}
    (hne : verifyAwb items input ≠ [])
    (hcnt : (flipRun items (verifyAwb items input)).2 ≠ 0) :
    fireVerification items input =
      ((flipRun items (verifyAwb items input)).1,
       .success (flipRun items (verifyAwb items input)).2
         (verifyAwb items input).length) := by
  simp only [fireVerification]
  rw [if_neg (by simp [List.isEmpty_iff, hne]), if_neg hcnt]

/-! ### Claim theorems -/

/-- C1: for a loaded record list and an operator input whose normalized
form has exact matches in the index — several records sharing that
normalized tracking number, at least one still Pending (otherwise the
engine emits `info`, not `success`) — firing the verification flips every
currently-Pending matched record to received in the one returned list,
leaves every other position untouched, and emits `success` carrying the
flipped count and the total matched count. -/
theorem C1_multi_match_flips_all_pending
    (items : List ReturnItem) (input : String)
    (hkey : jsTrim (jsToLower input) ≠ "")
    (hmulti : 2 ≤ (buildAwbMap items (jsTrim (jsToLower input))).length)
    (hpend : ∃ i ∈ buildAwbMap items (jsTrim (jsToLower input)),
        pendingAt items i = true) :
    (fireVerification items input).2 =
      VerifyOutcome.success
        (((buildAwbMap items (jsTrim (jsToLower input))).filter
            (pendingAt items)).length)
        (buildAwbMap items (jsTrim (jsToLower input))).length ∧
    (∀ j ∈ buildAwbMap items (jsTrim (jsToLower input)),
       (fireVerification items input).1[j]? =
         items[j]?.map (fun it => { it with received := true })) ∧
    (∀ j, j ∉ buildAwbMap items (jsTrim (jsToLower input)) →
       (fireVerification items input).1[j]? = items[j]?) := by
  have hne : buildAwbMap items (jsTrim (jsToLower input)) ≠ [] := by
    intro hnil
    rw [hnil] at hmulti
    simp at hmulti
  have hv : verifyAwb items input = buildAwbMap items (jsTrim (jsToLower input)) :=
    verifyAwb_of_exact_nonempty hkey hne
  have hcount : (flipRun items (verifyAwb items input)).2 =
      ((buildAwbMap items (jsTrim (jsToLower input))).filter
        (pendingAt items)).length := by
    rw [hv]
    exact flipRun_count _ _ (buildAwbMap_nodup items (jsTrim (jsToLower input)))
  have hpos : (flipRun items (verifyAwb items input)).2 ≠ 0 := by
    rw [hcount]
    rcases hpend with ⟨i, hi, hp⟩
    have hmem : i ∈ (buildAwbMap items (jsTrim (jsToLower input))).filter
        (pendingAt items) := List.mem_filter.mpr ⟨hi, hp⟩
    intro h0
    rw [List.length_eq_zero] at h0
    rw [h0] at hmem
    cases hmem
  have hfire := fireVerification_eq_success (hv ▸ hne) hpos
  refine ⟨?_, ?_, ?_⟩
  · rw [hfire]
    simp only
    rw [hcount, hv]
  · intro j hj
    rw [hfire]
    simp only
    exact flipRun_getElem?_mem _ _ _ (hv ▸ hj)
  · intro j hj
    rw [hfire]
    simp only
    exact flipRun_getElem?_not_mem _ _ _ (hv ▸ hj)

/-- Witness for C1: two records sharing AWB `"55555"`, the first already
received, the second still Pending; firing on `"55555"` flips the second,
leaves the first untouched, and reports 1 flipped of 2 matched. -/
theorem C1_witness :
    (fireVerification [itemDoneShared, itemPendShared] "55555").2 =
      VerifyOutcome.success 1 2 := by
  have h := C1_multi_match_flips_all_pending
    [itemDoneShared, itemPendShared] "55555"
    (by decide) (by decide) (by decide)
  rw [h.1]
  decide

/-- C3: the prefix fallback is sound and carrier-scoped.  When the exact
index is non-empty (and the normalized input non-empty, which is what the
engine ever fires on), `verifyAwb` returns exactly the exact matches —
the fallback is never consulted.  When the exact index is empty, every
position the lookup still yields satisfies: the normalized input minus
its last character is non-empty and all digits, and the matched record's
courier name contains the `"delhivery"` marker — so no record of another
courier is ever produced by the fallback. -/
theorem C3_fallback_only_exact_empty_digits_delhivery
    (items : List ReturnItem) (input : String) :
    (buildAwbMap items (jsTrim (jsToLower input)) ≠ [] →
       jsTrim (jsToLower input) ≠ "" →
       verifyAwb items input = buildAwbMap items (jsTrim (jsToLower input))) ∧
    (buildAwbMap items (jsTrim (jsToLower input)) = [] →
       ∀ i ∈ verifyAwb items input,
         jsDropLast (jsTrim (jsToLower input)) ≠ "" ∧
         isAllDigits (jsDropLast (jsTrim (jsToLower input))) = true ∧
         ∃ it, items[i]? = some it ∧
           strContains (jsToLower it.courierPartner) "delhivery" = true) := by
  constructor
  · intro hne h0
    exact verifyAwb_of_exact_nonempty h0 hne
  · intro hempty i hi
    obtain ⟨hlen, hdig, hmem⟩ := verifyAwb_mem_of_exact_empty hempty hi
    obtain ⟨it, hit, hdel, _, _, _⟩ := mem_buildDelhiveryPfxMap.mp hmem
    refine ⟨?_, hdig, it, hit, hdel⟩
    intro hnil
    rw [hnil] at hlen
    simp [jsLength] at hlen

/-- Witness for C3: one Delhivery record with AWB `"99988877701"`; the
input `"99988877700"` has no exact match, and every fallback result is a
record whose courier carries the marker, under an all-digit dropped-last
input form. -/
theorem C3_witness :
    buildAwbMap [itemDelhivery] (jsTrim (jsToLower "99988877700")) = [] ∧
    (∀ i ∈ verifyAwb [itemDelhivery] "99988877700",
       jsDropLast (jsTrim (jsToLower "99988877700")) ≠ "" ∧
       isAllDigits (jsDropLast (jsTrim (jsToLower "99988877700"))) = true ∧
       ∃ it, ([itemDelhivery] : List ReturnItem)[i]? = some it ∧
         strContains (jsToLower it.courierPartner) "delhivery" = true) :=
  ⟨by decide,
   (C3_fallback_only_exact_empty_digits_delhivery [itemDelhivery]
       "99988877700").2 (by decide)⟩

/-- C4: an input matching no record in either index makes the fired
verification emit `error` and leave the list untouched; matches that are
all already received make it emit `info` and leave the list untouched; in
both cases the auto-clear timer is scheduled, and its callback empties
the field only when the field's trimmed value still equals the value that
triggered the result, leaving it untouched otherwise. -/
theorem C4_error_info_no_mutation_guarded_clear
    (items : List ReturnItem) (trimmedAwb prevAwb : String) :
    (verifyAwb items trimmedAwb = [] →
       fireVerification items trimmedAwb = (items, .error)) ∧
    ((verifyAwb items trimmedAwb ≠ [] ∧
        ∀ i ∈ verifyAwb items trimmedAwb, pendingAt items i = false) →
       fireVerification items trimmedAwb =
         (items, .info (verifyAwb items trimmedAwb).length)) ∧
    (schedulesInputClear VerifyOutcome.error = true ∧
     (∀ n : Nat, schedulesInputClear (VerifyOutcome.info n) = true)) ∧
    (schedulesInputClear (fireVerification items trimmedAwb).2 = true →
       (jsTrim prevAwb = trimmedAwb →
          clearInputFire trimmedAwb prevAwb = "") ∧
       (jsTrim prevAwb ≠ trimmedAwb →
          clearInputFire trimmedAwb prevAwb = prevAwb)) := by
  refine ⟨fun h => fireVerification_eq_error h, fun h => ?_,
    ⟨rfl, fun n => rfl⟩, fun _ => ?_⟩
  · rcases h with ⟨hne, hall⟩
    have hzero : (flipRun items (verifyAwb items trimmedAwb)).2 = 0 := by
      rw [flipRun_count _ _ (verifyAwb_nodup items trimmedAwb)]
      have : (verifyAwb items trimmedAwb).filter (pendingAt items) = [] := by
        rw [List.filter_eq_nil_iff]
        intro i hi
        rw [hall i hi]
        exact Bool.false_ne_true
      rw [this]
      rfl
    exact fireVerification_eq_info hne hzero
  · constructor
    · intro he
      unfold clearInputFire
      rw [if_pos he]
    · intro he
      unfold clearInputFire
      rw [if_neg he]

/-- Witness for C4: with one Pending record with AWB `"12345"` loaded,
the input `"77777"` matches nothing, so the engine errors without
mutating, and the auto-clear callback clears `" 77777 "` (same trimmed
value) but leaves `"999"` alone. -/
theorem C4_witness :
    fireVerification [itemPlain] "77777" =
      ([itemPlain], VerifyOutcome.error) ∧
    clearInputFire "77777" " 77777 " = "" ∧
    clearInputFire "77777" "999" = "999" := by
  refine ⟨(C4_error_info_no_mutation_guarded_clear [itemPlain] "77777"
      "x").1 (by decide), ?_, ?_⟩
  · exact ((C4_error_info_no_mutation_guarded_clear [itemPlain] "77777"
      " 77777 ").2.2.2 (by decide)).1 (by decide)
  · exact ((C4_error_info_no_mutation_guarded_clear [itemPlain] "77777"
      "999").2.2.2 (by decide)).2 (by decide)

/-- C5: any keystroke whose trimmed value is shorter than 5 characters,
and any keystroke arriving with no records loaded, leaves the record list
untouched, starts no debounce timer (cancelling a pending one), and also
cancels any pending auto-clear timer. -/
theorem C5_short_input_or_no_records_inert
    (s : VerifState) (newAwb : String)
    (h : jsLength (jsTrim newAwb) < 5 ∨ s.awbList = []) :
    (handleAwbInputChange s newAwb).awbList = s.awbList ∧
    (handleAwbInputChange s newAwb).debounceTimer = none ∧
    (handleAwbInputChange s newAwb).clearInputTimer = none := by
  simp only [handleAwbInputChange]
  have hcond : ¬ ((decide (jsLength (jsTrim newAwb) ≥ 5) &&
      decide (s.awbList.length > 0)) = true) := by
    rcases h with h | h
    · have h5 : ¬ (jsLength (jsTrim newAwb) ≥ 5) := by omega
      simp [h5]
    · simp [h]
  rw [if_neg hcond]
  exact ⟨rfl, rfl, rfl⟩

/-- Witness for C5: a keystroke whose trimmed value has 3 characters, on
a state with one record loaded and both timers pending, leaves the list
alone, starts no debounce timer and cancels both timers. -/
theorem C5_witness :
    jsLength (jsTrim " 123 ") < 5 ∧
    ((handleAwbInputChange stateFix " 123 ").awbList = stateFix.awbList ∧
     (handleAwbInputChange stateFix " 123 ").debounceTimer = none ∧
     (handleAwbInputChange stateFix " 123 ").clearInputTimer = none) :=
  ⟨by decide,
   C5_short_input_or_no_records_inert stateFix " 123 " (Or.inl (by decide))⟩

/-- C2 counterexample: `itemDelhivery` is exactly the record the claim
describes (courier contains the marker, tracking number `"99988877701"`),
yet verifying the typed input `"9998887770"` — the number with its last
digit omitted — matches nothing and the engine emits `error`: the
fallback compares the input minus ITS last character (`"999888777"`)
against the stored key (`"9998887770"`), which differ in length. -/
theorem C2_counterexample :
    strContains (jsToLower itemDelhivery.courierPartner) "delhivery" =
      true ∧
    itemDelhivery.awb = "99988877701" ∧
    verifyAwb [itemDelhivery] "9998887770" = [] ∧
    fireVerification [itemDelhivery] "9998887770" =
      ([itemDelhivery], VerifyOutcome.error) := by
  decide

/-- C2 amended: with the same record, typing the number with its last
digit ALTERED (same length), `"99988877700"`, has no exact match and is
matched via the prefix fallback, flipping the record (success 1 of 1);
the omitted-last-digit input matches nothing. -/
theorem C2_amended_altered_last_digit :
    buildAwbMap [itemDelhivery] (jsTrim (jsToLower "99988877700")) = [] ∧
    verifyAwb [itemDelhivery] "99988877700" = [0] ∧
    (fireVerification [itemDelhivery] "99988877700").2 =
      VerifyOutcome.success 1 1 ∧
    verifyAwb [itemDelhivery] "9998887770" = [] := by
  decide

/-- C6: the `returnType` derivation reads the span's first row's fee cell
(fixed column 3): an unreadable (`null`) cell classifies
`Customer Return`; a readable cell classifies `RTO` exactly when its JS
numeric value compares equal to zero (`Number(v) === 0`, including
hex/octal/binary zero literals and decimals that underflow float64 to
zero) or its trimmed string form is the literal `"0"`, and
`Customer Return` in every other case. -/
theorem C6_return_type_rto_iff_zero_fee
    (firstRow : List (Option CellVal)) :
    (safeGetCell firstRow feeIndex = none →
       returnTypeOfFirstRow firstRow = "Customer Return") ∧
    (∀ v, safeGetCell firstRow feeIndex = some v →
       ((jsNumberEqZero v = true ∨ cellStrTrimEqZeroLit v = true) →
          returnTypeOfFirstRow firstRow = "RTO") ∧
       ((jsNumberEqZero v = false ∧ cellStrTrimEqZeroLit v = false) →
          returnTypeOfFirstRow firstRow = "Customer Return")) := by
  have hrw : returnTypeOfFirstRow firstRow =
      deriveReturnType (safeGetCell firstRow feeIndex) := rfl
  constructor
  · intro h
    rw [hrw, h]
    rfl
  · intro v hv
    constructor
    · intro hz
      have hcond : (jsNumberEqZero v || cellStrTrimEqZeroLit v) = true := by
        rcases hz with hz | hz
        · simp [hz]
        · simp [hz]
      rw [hrw, hv]
      simp only [deriveReturnType]
      rw [if_pos hcond]
    · rintro ⟨h1, h2⟩
      have hcond : ¬ ((jsNumberEqZero v ||
          cellStrTrimEqZeroLit v) = true) := by
        simp [h1, h2]
      rw [hrw, hv]
      simp only [deriveReturnType]
      rw [if_neg hcond]

set_option maxRecDepth 8192 in
/-- Witness for C6: fee cells holding `" 0 "` (string compare), `"0x0"`
(hex zero literal) and `"1e-324"` (decimal that underflows float64 to
zero) are all classified `RTO`, while `"5"` is `Customer Return`. -/
theorem C6_witness :
    returnTypeOfFirstRow
      [none, none, none, some (CellVal.str " 0 ")] = "RTO" ∧
    returnTypeOfFirstRow
      [none, none, none, some (CellVal.str "0x0")] = "RTO" ∧
    returnTypeOfFirstRow
      [none, none, none, some (CellVal.str "1e-324")] = "RTO" ∧
    returnTypeOfFirstRow
      [none, none, none, some (CellVal.str "5")] = "Customer Return" :=
  ⟨((C6_return_type_rto_iff_zero_fee
        [none, none, none, some (CellVal.str " 0 ")]).2
      (CellVal.str " 0 ") (by decide)).1 (Or.inr (by decide)),
   ((C6_return_type_rto_iff_zero_fee
        [none, none, none, some (CellVal.str "0x0")]).2
      (CellVal.str "0x0") (by decide)).1 (Or.inl (by decide)),
   ((C6_return_type_rto_iff_zero_fee
        [none, none, none, some (CellVal.str "1e-324")]).2
      (CellVal.str "1e-324") (by decide)).1 (Or.inl (by decide)),
   ((C6_return_type_rto_iff_zero_fee
        [none, none, none, some (CellVal.str "5")]).2
      (CellVal.str "5") (by decide)).2 ⟨by decide, by decide⟩⟩

/-- C7 counterexample: with the label `"Qty: "` (trailing space), the
label itself does NOT occur case-insensitively in the cell text
`"qty:3"`, yet `extractValue` returns the placeholder `"-"` instead of
the empty string the claim requires for a miss: the search uses the
whitespace-trimmed label (`"qty:"`, which does occur) while the skip
uses the untrimmed label's length. -/
theorem C7_counterexample :
    strContains (jsToLower "qty:3") (jsToLower "Qty: ") = false ∧
    extractValue "qty:3" "Qty: " = "-" := by
  decide

/-- C7 amended: `extractValue` searches case-insensitively for the
WHITESPACE-TRIMMED label; when the trimmed label first occurs at index
`idx`, it returns the trimmed remainder of the cell text after skipping
the UNTRIMMED label's length from `idx`, with one leading `:` stripped,
or the placeholder `"-"` when that remainder is empty — never the empty
string; when the trimmed label does not occur, it returns the empty
string, which is distinct from the placeholder.  (For whitespace-free
labels — all the labels the extractor is called with — this coincides
with the original claim.) -/
theorem C7_extract_value_trimmed_label_search
    (cellContent keyword : String) :
    (strIndexOf? (jsToLower cellContent) (jsTrim (jsToLower keyword)) =
        none →
       extractValue cellContent keyword = "") ∧
    (∀ idx,
       strIndexOf? (jsToLower cellContent) (jsTrim (jsToLower keyword)) =
           some idx →
       extractValue cellContent keyword =
         (let rem := jsTrim (jsDrop cellContent (idx + jsLength keyword))
          let rem2 :=
            if jsStartsWith rem ":" then jsTrim (jsDrop rem 1) else rem
          if rem2 = "" then "-" else rem2) ∧
       extractValue cellContent keyword ≠ "") ∧
    ("-" : String) ≠ "" := by
  refine ⟨?_, ?_, by decide⟩
  · intro h
    simp only [extractValue]
    rw [h]
  · intro idx h
    have heq : extractValue cellContent keyword =
        (let rem := jsTrim (jsDrop cellContent (idx + jsLength keyword))
         let rem2 :=
           if jsStartsWith rem ":" then jsTrim (jsDrop rem 1) else rem
         if rem2 = "" then "-" else rem2) := by
      simp only [extractValue]
      rw [h]
    refine ⟨heq, ?_⟩
    rw [heq]
    simp only
    split
    all_goals split
    all_goals first
    | decide
    | assumption

/-- Witness for C7: the label `"SKU:"` occurs at index 0 of
`"SKU: X1"`, and the extractor returns the non-empty remainder
`"X1"`. -/
theorem C7_witness :
    extractValue "SKU: X1" "SKU:" = "X1" ∧
    extractValue "SKU: X1" "SKU:" ≠ "" := by
  have h := (C7_extract_value_trimmed_label_search "SKU: X1" "SKU:").2.1
    0 (by decide)
  exact ⟨h.1.trans (by decide), h.2⟩

/-- C8: the generated report has exactly one output row per record, in
the original record order (row `i` is the projection of record `i`); a
row's `Status` is `"Done"` exactly when its record is received and
`"Pending"` exactly when it is not; and the row-level highlight fill is
applied exactly to the `Pending` rows. -/
theorem C8_report_rows_status_highlight (awbList : List ReturnItem) :
    (reportData awbList).length = awbList.length ∧
    (∀ i : Nat, (reportData awbList)[i]? = awbList[i]?.map toReportRow) ∧
    (∀ it : ReturnItem, ((toReportRow it).status = "Done" ↔ it.received = true) ∧
       ((toReportRow it).status = "Pending" ↔ it.received = false) ∧
       (rowHighlighted (toReportRow it) = true ↔ it.received = false)) := by
  refine ⟨List.length_map _ _, fun i => by simp [reportData], fun it => ?_⟩
  cases hr : it.received <;>
    simp [toReportRow, rowHighlighted, hr]

/-- Witness for C8: a one-record Pending list yields a one-row report
whose single row is highlighted. -/
theorem C8_witness :
    (reportData [itemPlain]).length = [itemPlain].length ∧
    rowHighlighted (toReportRow itemPlain) = true :=
  ⟨(C8_report_rows_status_highlight [itemPlain]).1,
   (((C8_report_rows_status_highlight [itemPlain]).2.2 itemPlain).2.2).mpr
     (by decide)⟩

/-- Equality of every record field except the mutable `received` flag. -/
def sameExceptReceived (a b : ReturnItem) : Prop :=
  a.awb = b.awb ∧ a.suborderId = b.suborderId ∧ a.sku = b.sku ∧
  a.category = b.category ∧ a.qty = b.qty ∧ a.size = b.size ∧
  a.returnReason = b.returnReason ∧
  a.returnShippingFee = b.returnShippingFee ∧
  a.deliveredOn = b.deliveredOn ∧ a.courierPartner = b.courierPartner ∧
  a.returnType = b.returnType

lemma sameExceptReceived_self (a : ReturnItem) : sameExceptReceived a a :=
  ⟨rfl, rfl, rfl, rfl, rfl, rfl, rfl, rfl, rfl, rfl, rfl⟩

lemma sameExceptReceived_set (a : ReturnItem) :
    sameExceptReceived a { a with received := true } :=
  ⟨rfl, rfl, rfl, rfl, rfl, rfl, rfl, rfl, rfl, rfl, rfl⟩

lemma fireVerification_fst_cases (items : List ReturnItem) (input : String)
    (j : Nat) :
    (fireVerification items input).1[j]? = items[j]? ∨
    (fireVerification items input).1[j]? =
      items[j]?.map (fun it => { it with received := true }) := by
  by_cases hne : verifyAwb items input = []
  · rw [fireVerification_eq_error hne]
    exact Or.inl rfl
  · by_cases hcnt : (flipRun items (verifyAwb items input)).2 = 0
    · rw [fireVerification_eq_info hne hcnt]
      exact Or.inl rfl
    · rw [fireVerification_eq_success hne hcnt]
      simp only
      by_cases hj : j ∈ verifyAwb items input
      · exact Or.inr (flipRun_getElem?_mem _ _ _ hj)
      · exact Or.inl (flipRun_getElem?_not_mem _ _ _ hj)

/-- C9: under both mutating operations — the verification-engine flip and
the bulk mark-selected — a record's received flag only ever goes from
Pending to Done (never back), every other field is left unchanged, and
every record assembled by the extractor starts Pending. -/
theorem C9_status_monotone_only_status_changes
    (items : List ReturnItem) (input : String) (selected : List String) :
    (∀ (j : Nat) (it it' : ReturnItem), items[j]? = some it →
       (fireVerification items input).1[j]? = some it' →
       sameExceptReceived it it' ∧
       (it.received = true → it'.received = true)) ∧
    (∀ (j : Nat) (it it' : ReturnItem), items[j]? = some it →
       (handleMarkSelectedAsReceived items selected).1[j]? = some it' →
       sameExceptReceived it it' ∧
       (it.received = true → it'.received = true)) ∧
    (∀ a c so sk cat q sz rr fee d rt : String,
       (mkReturnItem a c so sk cat q sz rr fee d rt).received = false) := by
  refine ⟨?_, ?_, fun a c so sk cat q sz rr fee d rt => rfl⟩
  · intro j it it' hj hj'
    rcases fireVerification_fst_cases items input j with hc | hc
    · rw [hc, hj] at hj'
      cases hj'
      exact ⟨sameExceptReceived_self it, fun h => h⟩
    · rw [hc, hj] at hj'
      simp only [Option.map_some'] at hj'
      cases hj'
      exact ⟨sameExceptReceived_set it, fun _ => rfl⟩
  · intro j it it' hj hj'
    by_cases hsel : selected.isEmpty = true
    · unfold handleMarkSelectedAsReceived at hj'
      rw [if_pos hsel] at hj'
      simp only at hj'
      rw [hj] at hj'
      cases hj'
      exact ⟨sameExceptReceived_self it, fun h => h⟩
    · unfold handleMarkSelectedAsReceived at hj'
      rw [if_neg hsel] at hj'
      simp only [List.getElem?_map, hj, Option.map_some'] at hj'
      by_cases hmem : it.awb ∈ selected
      · rw [if_pos hmem] at hj'
        cases hj'
        exact ⟨sameExceptReceived_set it, fun _ => rfl⟩
      · rw [if_neg hmem] at hj'
        cases hj'
        exact ⟨sameExceptReceived_self it, fun h => h⟩

/-- Witness for C9: the engine flip at matched position 0 keeps every
field of `itemPendShared` but the flag, and a freshly assembled record is
Pending. -/
theorem C9_witness :
    sameExceptReceived itemPendShared
      { itemPendShared with received := true } ∧
    (mkReturnItem "a" "c" "so" "sk" "cat" "q" "sz" "rr" "fee" "d"
      "rt").received = false :=
  ⟨((C9_status_monotone_only_status_changes [itemPendShared] "55555"
        []).1 0 itemPendShared { itemPendShared with received := true }
      (by decide) (by decide)).1,
   (C9_status_monotone_only_status_changes [itemPendShared] "55555"
        []).2.2 "a" "c" "so" "sk" "cat" "q" "sz" "rr" "fee" "d" "rt"⟩

/-- C10: when a tracking number in the selected set is shared by several
records, the bulk mark-selected operation marks every record with that
exact tracking-number string as received (not only the ticked row),
leaves every record whose tracking number is not selected unchanged, and
empties the selection afterwards. -/
theorem C10_bulk_mark_all_duplicates
    (items : List ReturnItem) (selected : List String) (a : String)
    (ha : a ∈ selected) :
    (∀ (j : Nat) (it : ReturnItem), items[j]? = some it → it.awb = a →
       (handleMarkSelectedAsReceived items selected).1[j]? =
         some { it with received := true }) ∧
    (∀ (j : Nat) (it : ReturnItem), items[j]? = some it → it.awb ∉ selected →
       (handleMarkSelectedAsReceived items selected).1[j]? = some it) ∧
    (handleMarkSelectedAsReceived items selected).2 = [] := by
  have hsel : ¬ selected.isEmpty = true := by
    simp only [List.isEmpty_iff]
    intro h
    rw [h] at ha
    cases ha
  unfold handleMarkSelectedAsReceived
  rw [if_neg hsel]
  refine ⟨?_, ?_, rfl⟩
  · intro j it hj hawb
    simp only [List.getElem?_map, hj, Option.map_some']
    rw [if_pos (hawb ▸ ha)]
  · intro j it hj hmem
    simp only [List.getElem?_map, hj, Option.map_some']
    rw [if_neg hmem]

/-- Witness for C10: with duplicates of AWB `"55555"` in positions 0 and
1 and a distinct record in position 2, selecting `"55555"` marks both
duplicates, leaves the third record alone, and clears the selection. -/
theorem C10_witness :
    (handleMarkSelectedAsReceived
        [itemPendShared, itemDoneShared, itemPlain] ["55555"]).1[0]? =
      some { itemPendShared with received := true } ∧
    (handleMarkSelectedAsReceived
        [itemPendShared, itemDoneShared, itemPlain] ["55555"]).1[2]? =
      some itemPlain ∧
    (handleMarkSelectedAsReceived
        [itemPendShared, itemDoneShared, itemPlain] ["55555"]).2 = [] :=
  ⟨(C10_bulk_mark_all_duplicates
      [itemPendShared, itemDoneShared, itemPlain] ["55555"] "55555"
      (by decide)).1 0 itemPendShared (by decide) (by decide),
   (C10_bulk_mark_all_duplicates
      [itemPendShared, itemDoneShared, itemPlain] ["55555"] "55555"
      (by decide)).2.1 2 itemPlain (by decide) (by decide),
   (C10_bulk_mark_all_duplicates
      [itemPendShared, itemDoneShared, itemPlain] ["55555"] "55555"
      (by decide)).2.2⟩

end ReturnVerify
